import Mathlib

/-!
# Verification of the HiveTalk scheduler-repeater delivery pipeline

This file is a shallow embedding of the parts of the repository that the
specification's testable properties talk about:

* the candidate-selection queries of `30311_events/main.go`
  (`fetchUpcomingEvents`) and of the earlier variant of the same file,
* the batch worker loop (`processBatch`),
* the broadcaster (`SendToRelays` of `30311_events/nostr.go`, and
  `sendLiveEvent` / `sendNewEvent` of `30311_events/nostr_event_processor.go`),
* the status reconciliation writes (`MarkEventAsProcessed` of
  `30311_events/db.go`),
* the message formatters (`generateNip53`, `updateNip53`),
* the Discord webhook truncation (`truncateMessage` of
  `honey_30312/discord.go`),
* the file-backed room/tag map of `honey_30312/honey_poller.go`.

Times are modelled as integers (unix seconds), SQL rows as Lean structures,
nullable columns as `Option`, Go byte strings as `List Char` (all the strings
involved are ASCII, where Go's `len` agrees with the character count), and
the database tables as lists of rows.  Network publishing is modelled by an
oracle `accepts : String → Bool` saying which relay endpoints accept the
message; everything downstream of that oracle is translated from the source.
-/

namespace Scheduler

/-- The `Event` row of `30311_events/main.go` (table `events`): nullable
columns are `Option`, timestamps are unix seconds. -/
structure Event where
  id : String
  name : String
  startTime : Int
  endTime : Int
  roomName : Option String
  identifier : Option String
  description : Option String
  image : Option String
  status : Option String
deriving DecidableEq

/-- Go helper `(e *Event) GetIdentifier` — empty string when NULL. -/
def Event.getIdentifier (e : Event) : String := e.identifier.getD ""

/-- Go helper `(e *Event) GetRoomName`. -/
def Event.getRoomName (e : Event) : String := e.roomName.getD ""

/-- Go helper `(e *Event) GetDescription`. -/
def Event.getDescription (e : Event) : String := e.description.getD ""

/-- Go helper `(e *Event) GetImage`. -/
def Event.getImage (e : Event) : String := e.image.getD ""

/-- Go helper `(e *Event) GetStatus`. -/
def Event.getStatus (e : Event) : String := e.status.getD ""

/-- The two target actions of `fetchUpcomingEvents`: the "starting events"
query processes with status `"live"`, the "ending events" query with
status `"ended"`. -/
inductive Action where
  | live
  | ended
deriving DecidableEq

/-- The status string passed to `processBatch` for an action
(`EventBatch.Status`). -/
def Action.statusString : Action → String
  | .live => "live"
  | .ended => "ended"

/-- Terminal success status written by `sendNewEvent`: `status + ":sent"`. -/
def Action.sentStatus (a : Action) : String := a.statusString ++ ":sent"

/-- Terminal-until-retry status written by `sendNewEvent` on a failed
broadcast: `status + ":failed"`. -/
def Action.failedStatus (a : Action) : String := a.statusString ++ ":failed"

/-- The timestamp column the selection query of an action ranges over:
`start_time` for the starting query, `end_time` for the ending query. -/
def Action.triggerTime : Action → Event → Int
  | .live, e => e.startTime
  | .ended, e => e.endTime

/-- The status filter shared by both queries of
`30311_events/main.go` (`fetchUpcomingEvents`):
`(status IS NULL OR status NOT IN ('live:sent', 'ended:sent'))`. -/
def statusFilter : Option String → Bool
  | none => true
  | some s => !(["live:sent", "ended:sent"].contains s)

/-- The WHERE clause of the selection query of `fetchUpcomingEvents`
(`30311_events/main.go`, lines 157–162 for the starting query and
252–257 for the ending query): the trigger timestamp lies in the window
and the shared status filter passes. -/
def selectForAction (a : Action) (timeMin timeMax : Int) (e : Event) : Bool :=
  decide (timeMin ≤ a.triggerTime e) && decide (a.triggerTime e ≤ timeMax)
    && statusFilter e.status

/-- The WHERE clause of the earlier variant of the same file
(`src/unnamed/part_001`, lines 80–100): `status != 'live:sent'` for the
starting query and `status != 'ended:sent'` for the ending query.  SQL
three-valued logic makes the inequality filter reject NULL statuses. -/
def selectForActionV1 (a : Action) (timeMin timeMax : Int) (e : Event) : Bool :=
  decide (timeMin ≤ a.triggerTime e) && decide (a.triggerTime e ≤ timeMax)
    && (match e.status with
        | none => false
        | some s => decide (s ≠ a.sentStatus))

/-! ## Broadcaster (`30311_events/nostr.go` and `nostr_event_processor.go`)

Per-endpoint publish outcomes are abstracted by an oracle
`accepts : String → Bool`; the aggregation logic below is the source's. -/

/-- `SendToRelays` (`30311_events/nostr.go`, lines 64–116): publish to every
relay, collect per-relay successes and failures; report success when at
least one relay accepted, an error when there were failures and no success,
and success when there was nothing to do. -/
def sendToRelays (accepts : String → Bool) (relays : List String) :
    Except String Unit :=
  let successes := relays.filter accepts
  let failures := relays.filter (fun r => !(accepts r))
  if successes.length > 0 then Except.ok ()
  else if failures.length > 0 then
    Except.error "failed to publish to all relays"
  else Except.ok ()

/-- The per-event reconciliation of `ProcessLatestEvents`
(`30311_events/nostr_event_processor.go`, lines 106–126): when the
broadcast errors the row is marked `failed`, otherwise `processed`
(the `EventStatus` constants of `30311_events/db.go`). -/
def processLatestEventOutcome (accepts : String → Bool)
    (relays : List String) : String :=
  match sendToRelays accepts relays with
  | .ok _ => "processed"
  | .error _ => "failed"

/-- Observable operations of the `sendNewEvent` pipeline, in the order the
code performs them. -/
inductive Op where
  | queryRoomInfo
  | format
  | sign
  | writeStatus (s : String)
  | publishAttempt (url : String) (accepted : Bool)
deriving DecidableEq

/-- `sendLiveEvent` (`30311_events/nostr_event_processor.go`, lines
301–326): attempt every relay in order, logging connection/publish
failures and continuing; the function returns `nil` unconditionally, so
its result never records a failure. -/
def sendLiveEvent (accepts : String → Bool) (relays : List String) :
    List Op × Except String Unit :=
  (relays.map (fun r => Op.publishAttempt r (accepts r)), Except.ok ())

/-- `sendNewEvent` (`30311_events/nostr_event_processor.go`, lines
328–392) as a trace of operations plus the final persisted status of the
row: fetch the room info, format (`updateNip53`), sign, write
`status + ":sent"` to the `events` table, then broadcast via
`sendLiveEvent`; only if the broadcast reports an error is the status
rewritten to `status + ":failed"`. -/
def sendNewEvent (accepts : String → Bool) (status : String)
    (relays : List String) : List Op × String :=
  let broadcast := sendLiveEvent accepts relays
  let prefixOps := [Op.queryRoomInfo, Op.format, Op.sign,
    Op.writeStatus (status ++ ":sent")]
  match broadcast.2 with
  | .ok _ => (prefixOps ++ broadcast.1, status ++ ":sent")
  | .error _ =>
    (prefixOps ++ broadcast.1 ++ [Op.writeStatus (status ++ ":failed")],
      status ++ ":failed")

/-- The status value `sendNewEvent` leaves in the `events` row. -/
def sendNewEventFinalStatus (accepts : String → Bool) (status : String)
    (relays : List String) : String :=
  (sendNewEvent accepts status relays).2

/-! ## Batch worker loop (`30311_events/main.go`, `processBatch`) -/

/-- Whether a per-record outcome is an error (collected on `errChan`). -/
def isErr : Except String Unit → Bool
  | .error _ => true
  | .ok _ => false

/-- The per-record work of `processBatch`: every event of the batch gets its
own worker invoking `sendNewEvent`; an error is recorded on the error
channel and the remaining events are still processed. -/
def processBatchOutcomes (send : Event → Except String Unit) :
    List Event → List (String × Except String Unit)
  | [] => []
  | e :: rest => (e.id, send e) :: processBatchOutcomes send rest

/-- `processBatch` (`30311_events/main.go`, lines 24–59): run every event of
the batch, collect the errors, and return a batch-level error exactly when
at least one record failed. -/
def processBatch (send : Event → Except String Unit) (events : List Event) :
    List (String × Except String Unit) × Option String :=
  let outcomes := processBatchOutcomes send events
  let errs := outcomes.filter (fun p => isErr p.2)
  (outcomes,
    if errs.length > 0 then
      some ("batch processing encountered " ++ toString errs.length ++ " errors")
    else none)

/-! ## Status reconciliation (`30311_events/db.go`) -/

/-- The columns of the `events` table touched by `MarkEventAsProcessed`
(`30311_events/db.go`): `nostr_status`, `nostr_processed_at`,
`nostr_error`, `updated_at`, keyed by `identifier`. -/
structure EventsRow where
  identifier : String
  nostrStatus : String
  nostrProcessedAt : Option Int
  nostrError : Option String
  updatedAt : Int
deriving DecidableEq

/-- The SET clause of `MarkEventAsProcessed` applied to one row when the
WHERE clause matches: `nostr_status = 'processed'`,
`nostr_processed_at = now`, `updated_at = now`. -/
def processedUpdate (now : Int) (identifier : String) (r : EventsRow) :
    EventsRow :=
  if r.identifier = identifier then
    { r with nostrStatus := "processed", nostrProcessedAt := some now,
             updatedAt := now }
  else r

/-- `MarkEventAsProcessed` (`30311_events/db.go`, lines 71–96): update every
row whose `identifier` matches, and report an error when zero rows were
affected. -/
def markEventAsProcessed (now : Int) (db : List EventsRow)
    (identifier : String) : Except String (List EventsRow) :=
  let affected := db.countP (fun r => decide (r.identifier = identifier))
  if affected = 0 then
    Except.error ("no event found with identifier: " ++ identifier)
  else Except.ok (db.map (processedUpdate now identifier))

/-- The effect of a repeated `MarkEventAsProcessed` on a row that is already
`processed`: the status columns are unchanged but the timestamp columns
are refreshed to the new wall-clock value. -/
def timestampRefresh (now : Int) (identifier : String) (r : EventsRow) :
    EventsRow :=
  if r.identifier = identifier then
    { r with nostrProcessedAt := some now, updatedAt := now }
  else r

/-! ## Webhook truncation (`honey_30312/discord.go`) -/

/-- `maxDiscordMessageSize` of `honey_30312/discord.go`. -/
def maxDiscordMessageSize : Nat := 2000

/-- The 51-character notice `truncateMessage` appends:
a newline followed by `... [message truncated due to Discord size limits]`. -/
def truncationNotice : List Char :=
  "\n... [message truncated due to Discord size limits]".toList

/-- `truncateMessage` (`honey_30312/discord.go`, lines 31–38, identical in
`src/unnamed/part_006`): messages within the ceiling pass through; longer
messages keep their first `maxSize - 50` bytes and gain the truncation
notice.  Go byte strings are modelled as `List Char` (ASCII). -/
def truncateMessage (message : List Char) (maxSize : Nat) : List Char :=
  if message.length ≤ maxSize then message
  else message.take (maxSize - 50) ++ truncationNotice

/-- The message body `sendRoomBatch` (`honey_30312/discord.go`, lines
199–208) hands to the webhook: truncated only when over the ceiling. -/
def sendRoomBatchBody (message : List Char) : List Char :=
  if message.length > maxDiscordMessageSize then
    truncateMessage message maxDiscordMessageSize
  else message

/-! ## Message formatters (`30311_events/nostr_event_processor.go`) -/

/-- The `EventData` record of `30311_events/nostr_event_processor.go`
(package `events`). -/
structure EventData where
  profileID : String
  naddrID : String
  name : String
  description : String
  imageURL : String
  startTime : Int
  endTime : Int
  isPaidEvent : Bool
  roomName : String
  identifier : String
  nostrPubkey : String
deriving DecidableEq

/-- The `Nip53Event` record of `30311_events/nostr_event_processor.go`. -/
structure Nip53Event where
  kind : Int
  createdAt : Int
  pubkey : String
  tags : List (List String)
  content : String
deriving DecidableEq

/-- `generateNip53` (`30311_events/nostr_event_processor.go`, lines 33–63):
kind-30311 event with a fixed tag list; the `summary` and `image` tags are
always present, holding the (possibly empty) description and image URL;
the room name falls back to the profile id for "Random Room". -/
def generateNip53 (event : EventData) (pubkey : String) (hiveURL : String)
    (nowUnix : Int) : Nip53Event :=
  let roomName :=
    if event.roomName = "Random Room" then event.profileID else event.roomName
  { kind := 30311
    createdAt := nowUnix
    pubkey := pubkey
    tags := [["d", event.identifier],
             ["title", event.name],
             ["starts", toString event.startTime],
             ["ends", toString event.endTime],
             ["streaming", hiveURL ++ "/join/" ++ roomName],
             ["summary", event.description],
             ["image", event.imageURL],
             ["status", "planned"],
             ["t", "nostr"],
             ["t", "hivetalk"],
             ["t", "livestream"]]
    content := "" }

/-- The tag list built by `updateNip53`
(`30311_events/nostr_event_processor.go`, lines 267–299): a fixed base
list, then a `description` tag only when the description is non-empty,
then an `image` tag only when the image is non-empty. -/
def updateNip53Tags (hivetalkURL : String) (e : Event) (status : String) :
    List (List String) :=
  let base := [["d", e.getIdentifier],
               ["title", e.name],
               ["starts", toString e.startTime],
               ["ends", toString e.endTime],
               ["status", status],
               ["streaming", hivetalkURL ++ "/join/" ++ e.getRoomName],
               ["t", "nostr"],
               ["t", "hivetalk"],
               ["t", "livestream"]]
  let withDescription :=
    if e.getDescription ≠ "" then base ++ [["description", e.getDescription]]
    else base
  if e.getImage ≠ "" then withDescription ++ [["image", e.getImage]]
  else withDescription

/-- Whether a tag list carries an attribute with the given key (the first
element of a tag names its attribute). -/
def hasTag (tags : List (List String)) (key : String) : Bool :=
  tags.any (fun t => decide (t.head? = some key))

/-! ## File-backed room/tag map (`honey_30312/honey_poller.go`)

The JSON map `room id → RoomInfo` is modelled as an association list; the
random d-tag generator and `time.Now()` are parameters of the operations
that use them. -/

/-- The `RoomInfo` record of `honey_30312/honey_poller.go`. -/
structure RoomInfo where
  dTag : String
  roomName : String
  status : String
  lastSeen : Int
deriving DecidableEq

/-- The room database: the `Rooms` map of `RoomDatabase`, as an association
list from room id (`sid`) to `RoomInfo`. -/
def RoomDB := List (String × RoomInfo)

instance : DecidableEq RoomDB := by
  unfold RoomDB
  infer_instance

/-- Map lookup `db.Rooms[roomID]`. -/
def lookupRoom : RoomDB → String → Option RoomInfo
  | [], _ => none
  | (k, v) :: rest, key => if k = key then some v else lookupRoom rest key

/-- Map write `db.Rooms[roomID] = info`: replace the entry when the key is
present, otherwise add it. -/
def setRoom : RoomDB → String → RoomInfo → RoomDB
  | [], key, v => [(key, v)]
  | (k, w) :: rest, key, v =>
    if k = key then (key, v) :: rest else (k, w) :: setRoom rest key v

/-- The d-tag a room id currently maps to, when it has an entry. -/
def dTagOf (db : RoomDB) (roomID : String) : Option String :=
  (lookupRoom db roomID).map (fun info => info.dTag)

/-- `getDTag` (`honey_30312/honey_poller.go`, lines 96–114): return the
existing d-tag, or assign a freshly generated one (`fresh` stands for the
`generateDTag()` result) together with a default entry. -/
def getDTag (fresh : String) (db : RoomDB) (roomID : String) :
    String × RoomDB :=
  match lookupRoom db roomID with
  | some info => (info.dTag, db)
  | none =>
    (fresh, setRoom db roomID
      { dTag := fresh, roomName := "Unknown Room", status := "unknown",
        lastSeen := 0 })

/-- `updateRoomStatus` (`honey_30312/honey_poller.go`, lines 132–167):
create the entry (via `getDTag`) when absent; otherwise rewrite name,
status and last-seen while keeping the stored d-tag.  Returns whether the
status (or name) changed. -/
def updateRoomStatus (now : Int) (fresh : String) (db : RoomDB)
    (roomID roomName status : String) : Bool × RoomDB :=
  match lookupRoom db roomID with
  | none =>
    let created := getDTag fresh db roomID
    (true, setRoom created.2 roomID
      { dTag := created.1, roomName := roomName, status := status,
        lastSeen := now })
  | some info =>
    if info.status ≠ status ∨ info.roomName ≠ roomName then
      (true, setRoom db roomID
        { info with status := status, roomName := roomName, lastSeen := now })
    else
      (false, setRoom db roomID { info with lastSeen := now })

/-- The body of the `checkClosedRooms` loop, iterating over the room ids of
the map: a previously open room that is no longer active is appended to
the closed list and marked closed via `updateRoomStatus` (reusing the
stored room name, with `"Closed Room"` as fallback). -/
def checkClosedRoomsAux (now : Int) (fresh : String)
    (active : List String) :
    List String → RoomDB → List String × RoomDB
  | [], db => ([], db)
  | k :: rest, db =>
    match lookupRoom db k with
    | some info =>
      if info.status = "open" ∧ ¬ active.contains k then
        let roomName := if info.roomName ≠ "" then info.roomName
          else "Closed Room"
        let db1 := (updateRoomStatus now fresh db k roomName "closed").2
        let tail := checkClosedRoomsAux now fresh active rest db1
        (k :: tail.1, tail.2)
      else checkClosedRoomsAux now fresh active rest db
    | none => checkClosedRoomsAux now fresh active rest db

/-- `checkClosedRooms` (`honey_30312/honey_poller.go`, lines 170–196):
scan every room of the map, marking as closed the open rooms that are not
in the active list. -/
def checkClosedRooms (now : Int) (fresh : String) (active : List String)
    (db : RoomDB) : List String × RoomDB :=
  checkClosedRoomsAux now fresh active (db.map (fun p => p.1)) db

/-! ## Theorems -/

/-- C1: for every record and every action in {live, ended}, if the persisted
status equals the action's terminal `sent` value, then the candidate
selection query for that action (over any selection window) does not return
the record — in the current query of `30311_events/main.go` and in the
earlier variant of `src/unnamed/part_001` alike. -/
theorem sent_status_excluded_from_selection (a : Action) (e : Event)
    (timeMin timeMax : Int) (h : e.status = some a.sentStatus) :
    selectForAction a timeMin timeMax e = false ∧
    selectForActionV1 a timeMin timeMax e = false := by
  cases a <;>
    simp [selectForAction, selectForActionV1, statusFilter, h,
      Action.sentStatus, Action.statusString]

/-- Witness for C1: a concrete record with status `live:sent` is selected by
neither variant of the starting query. -/
theorem sent_status_excluded_from_selection_witness :
    ((Event.mk "e1" "n" 0 0 none none none none (some "live:sent")).status
        = some Action.live.sentStatus) ∧
    (selectForAction Action.live 0 0
        (Event.mk "e1" "n" 0 0 none none none none (some "live:sent")) = false ∧
      selectForActionV1 Action.live 0 0
        (Event.mk "e1" "n" 0 0 none none none none (some "live:sent")) = false) :=
  ⟨by decide,
    sent_status_excluded_from_selection Action.live
      (Event.mk "e1" "n" 0 0 none none none none (some "live:sent")) 0 0
      (by decide)⟩

/-- C4: a record whose status is the action's `failed` value and whose
trigger timestamp lies inside the selection window is selected again by the
query of `30311_events/main.go` — failed records are eligible for retry. -/
theorem failed_status_reselected (a : Action) (e : Event)
    (timeMin timeMax : Int) (h : e.status = some a.failedStatus)
    (h1 : timeMin ≤ a.triggerTime e) (h2 : a.triggerTime e ≤ timeMax) :
    selectForAction a timeMin timeMax e = true := by
  cases a <;>
    simp_all [selectForAction, statusFilter, Action.failedStatus,
      Action.statusString, Action.triggerTime]

/-- Witness for C4: a concrete record with status `live:failed` and start
time inside the window is selected by the starting query. -/
theorem failed_status_reselected_witness :
    ((Event.mk "e1" "n" 5 9 none none none none (some "live:failed")).status
        = some Action.live.failedStatus) ∧
    (0 : Int) ≤ Action.live.triggerTime
        (Event.mk "e1" "n" 5 9 none none none none (some "live:failed")) ∧
    Action.live.triggerTime
        (Event.mk "e1" "n" 5 9 none none none none (some "live:failed")) ≤ 10 ∧
    selectForAction Action.live 0 10
        (Event.mk "e1" "n" 5 9 none none none none (some "live:failed")) = true :=
  ⟨by decide, by decide, by decide,
    failed_status_reselected Action.live
      (Event.mk "e1" "n" 5 9 none none none none (some "live:failed")) 0 10
      (by decide) (by decide) (by decide)⟩

/-- C10: the terminal-exclusion set `('live:sent', 'ended:sent')` is shared
by the starting and ending queries of `30311_events/main.go`: a record with
status `ended:sent` is not selected for the live action, and a record with
status `live:sent` is not selected for the ended action. -/
theorem terminal_exclusion_shared_across_actions (e : Event)
    (timeMin timeMax : Int) :
    (e.status = some "ended:sent" →
      selectForAction Action.live timeMin timeMax e = false) ∧
    (e.status = some "live:sent" →
      selectForAction Action.ended timeMin timeMax e = false) := by
  constructor <;> intro h <;> simp [selectForAction, statusFilter, h]

/-- Witness for C10: concrete records carrying the other action's `sent`
status are excluded from both queries. -/
theorem terminal_exclusion_shared_across_actions_witness :
    selectForAction Action.live 0 10
      (Event.mk "e2" "n" 5 9 none none none none (some "ended:sent")) = false ∧
    selectForAction Action.ended 0 10
      (Event.mk "e3" "n" 5 9 none none none none (some "live:sent")) = false :=
  ⟨(terminal_exclusion_shared_across_actions
      (Event.mk "e2" "n" 5 9 none none none none (some "ended:sent")) 0 10).1
        (by decide),
    (terminal_exclusion_shared_across_actions
      (Event.mk "e3" "n" 5 9 none none none none (some "live:sent")) 0 10).2
        (by decide)⟩

/-- C2, counterexample: the claim says the record's final persisted status
is the failure value when zero endpoints accept, but in the
`sendNewEvent`/`sendLiveEvent` pipeline the final status is `live:sent`
even when every endpoint rejects the message — `sendLiveEvent` reports
success unconditionally, so the failure branch of `sendNewEvent` is
unreachable. -/
theorem sendLiveEvent_pipeline_persists_sent_on_total_failure :
    ((["wss://relay.damus.io"].filter (fun _ => false)).length = 0) ∧
    sendNewEventFinalStatus (fun _ => false) "live" ["wss://relay.damus.io"]
      = "live:sent" ∧
    sendNewEventFinalStatus (fun _ => false) "live" ["wss://relay.damus.io"]
      ≠ "live:failed" := by
  refine ⟨rfl, rfl, by decide⟩

/-- C2, amended: for a non-empty endpoint list, `SendToRelays` reports
overall success iff at least one endpoint accepts, and the
`ProcessLatestEvents` pipeline persists `processed` exactly in that case
(`failed` otherwise); the `sendNewEvent`/`sendLiveEvent` pipeline, however,
persists the success value `status:sent` regardless of how many endpoints
accepted, because `sendLiveEvent` swallows all per-relay failures. -/
theorem at_least_one_delivery_semantics (accepts : String → Bool)
    (relays : List String) (h : relays ≠ []) :
    (sendToRelays accepts relays = Except.ok () ↔
      1 ≤ (relays.filter accepts).length) ∧
    (processLatestEventOutcome accepts relays = "processed" ↔
      1 ≤ (relays.filter accepts).length) ∧
    (∀ status, sendNewEventFinalStatus accepts status relays
      = status ++ ":sent") := by
  have main : sendToRelays accepts relays = Except.ok () ↔
      1 ≤ (relays.filter accepts).length := by
    unfold sendToRelays
    by_cases hs : (relays.filter accepts).length > 0
    · simp [hs]
      omega
    · have hnil : relays.filter accepts = [] := by
        cases hfe : relays.filter accepts with
        | nil => rfl
        | cons a t => rw [hfe] at hs; simp at hs
      have hall : ∀ r ∈ relays, accepts r = false := by
        intro r hr
        by_contra hc
        have : r ∈ relays.filter accepts :=
          List.mem_filter.mpr ⟨hr, by simpa using hc⟩
        simp [hnil] at this
      have hfail : relays.filter (fun r => !(accepts r)) = relays := by
        apply List.filter_eq_self.mpr
        intro a ha
        simp [hall a ha]
      have hlen : relays.length > 0 := List.length_pos.mpr h
      simp only [hnil]
      rw [if_neg (by simp), hfail, if_pos hlen]
      simp
  refine ⟨main, ?_, ?_⟩
  · by_cases hm : 1 ≤ (relays.filter accepts).length
    · have hok := main.mpr hm
      simp [processLatestEventOutcome, hok, hm]
    · have hne : sendToRelays accepts relays ≠ Except.ok () :=
        fun hc => hm (main.mp hc)
      cases he : sendToRelays accepts relays with
      | ok v => cases v; exact absurd he hne
      | error msg =>
        simp [processLatestEventOutcome, he, hm]
  · intro status
    rfl

/-- Witness for C2 (amended): one relay accepting makes `SendToRelays`
succeed, `ProcessLatestEvents` persist `processed`, and `sendNewEvent`
persist `live:sent`. -/
theorem at_least_one_delivery_semantics_witness :
    (["wss://relay.damus.io"] : List String) ≠ [] ∧
    sendToRelays (fun _ => true) ["wss://relay.damus.io"] = Except.ok () ∧
    processLatestEventOutcome (fun _ => true) ["wss://relay.damus.io"]
      = "processed" ∧
    sendNewEventFinalStatus (fun _ => true) "live" ["wss://relay.damus.io"]
      = "live:sent" := by
  refine ⟨by decide, ?_, ?_, ?_⟩
  · exact (at_least_one_delivery_semantics (fun _ => true)
      ["wss://relay.damus.io"] (by decide)).1.mpr (by decide)
  · exact (at_least_one_delivery_semantics (fun _ => true)
      ["wss://relay.damus.io"] (by decide)).2.1.mpr (by decide)
  · exact (at_least_one_delivery_semantics (fun _ => true)
      ["wss://relay.damus.io"] (by decide)).2.2 "live"

/-- C3, counterexample: the claim says the persisted status is written only
after the broadcast attempt has completed, but in the `sendNewEvent` trace
the `status:sent` database write sits at index 3, before the broadcast
attempt at index 4. -/
theorem status_written_before_broadcast :
    (sendNewEvent (fun _ => true) "live" ["wss://relay.damus.io"]).1.get? 3
      = some (Op.writeStatus "live:sent") ∧
    (sendNewEvent (fun _ => true) "live" ["wss://relay.damus.io"]).1.get? 4
      = some (Op.publishAttempt "wss://relay.damus.io" true) ∧
    (3 : Nat) < 4 := by
  refine ⟨rfl, rfl, by decide⟩

/-- C3, amended: per record, `sendNewEvent` performs the room-info query,
then Formatting, then Signing, then the `status:sent` database write, and
only then the broadcast attempts — the persisted status is written before
the broadcast, not after it, and no write follows the broadcast because
`sendLiveEvent` always reports success. -/
theorem sendNewEvent_operation_order (accepts : String → Bool)
    (status : String) (relays : List String) :
    (sendNewEvent accepts status relays).1 =
      [Op.queryRoomInfo, Op.format, Op.sign,
        Op.writeStatus (status ++ ":sent")] ++
        relays.map (fun r => Op.publishAttempt r (accepts r)) := rfl

/-- The worker loop of `processBatch` runs one `sendNewEvent` per event. -/
theorem processBatchOutcomes_eq_map (send : Event → Except String Unit)
    (events : List Event) :
    processBatchOutcomes send events = events.map (fun e => (e.id, send e)) := by
  induction events with
  | nil => rfl
  | cons e t ih => simp [processBatchOutcomes, ih]

/-- C5: in a batch of K records, every record is attempted and receives its
own terminal outcome, computed from that record alone — an error returned
for one record does not remove or change any sibling's outcome. -/
theorem batch_isolation_under_partial_failure
    (send : Event → Except String Unit) (events : List Event)
    (i : Nat) (h : i < events.length) :
    (processBatch send events).1.length = events.length ∧
    (processBatch send events).1.get? i =
      some ((events.get ⟨i, h⟩).id, send (events.get ⟨i, h⟩)) := by
  constructor
  · simp [processBatch, processBatchOutcomes_eq_map]
  · simp only [processBatch, processBatchOutcomes_eq_map]
    rw [List.get?_map, List.get?_eq_get h]
    simp

/-- Witness for C5: with the first record's send failing, the second record
of the batch still gets its own successful outcome. -/
theorem batch_isolation_under_partial_failure_witness :
    1 < ([Event.mk "bad" "b" 0 0 none none none none none,
          Event.mk "good" "g" 0 0 none none none none none] : List Event).length ∧
    (processBatch
      (fun e => if e.id = "bad" then Except.error "formatter error"
        else Except.ok ())
      [Event.mk "bad" "b" 0 0 none none none none none,
       Event.mk "good" "g" 0 0 none none none none none]).1.get? 1
      = some ("good", Except.ok ()) := by
  refine ⟨by decide, ?_⟩
  exact (batch_isolation_under_partial_failure
    (fun e => if e.id = "bad" then Except.error "formatter error"
      else Except.ok ())
    [Event.mk "bad" "b" 0 0 none none none none none,
     Event.mk "good" "g" 0 0 none none none none none] 1 (by decide)).2

/-- `MarkEventAsProcessed` rewrites rows without changing their key. -/
theorem processedUpdate_identifier (now : Int) (identifier : String)
    (r : EventsRow) :
    (processedUpdate now identifier r).identifier = r.identifier := by
  unfold processedUpdate
  split <;> rfl

/-- Applying the `MarkEventAsProcessed` SET clause a second time only
refreshes the timestamp columns. -/
theorem processedUpdate_twice (now1 now2 : Int) (identifier : String)
    (r : EventsRow) :
    processedUpdate now2 identifier (processedUpdate now1 identifier r)
      = timestampRefresh now2 identifier (processedUpdate now1 identifier r) := by
  by_cases hr : r.identifier = identifier <;>
    simp [processedUpdate, timestampRefresh, hr]

/-- The affected-row count of `MarkEventAsProcessed` is stable under its own
update. -/
theorem countP_identifier_map (now : Int) (identifier : String)
    (db : List EventsRow) :
    (db.map (processedUpdate now identifier)).countP
        (fun r => decide (r.identifier = identifier))
      = db.countP (fun r => decide (r.identifier = identifier)) := by
  induction db with
  | nil => rfl
  | cons r t ih => simp [List.countP_cons, processedUpdate_identifier, ih]

/-- C6, counterexample: the claim says a second status update with the same
terminal status is a no-op on the stored row, but a second
`MarkEventAsProcessed` rewrites `nostr_processed_at` and `updated_at` with
the new wall-clock time, so the stored row after the second call differs
from the row after the first. -/
theorem second_mark_processed_refreshes_timestamps :
    markEventAsProcessed 1 [EventsRow.mk "e1" "pending" none none 0] "e1"
      = Except.ok [EventsRow.mk "e1" "processed" (some 1) none 1] ∧
    markEventAsProcessed 2 [EventsRow.mk "e1" "processed" (some 1) none 1] "e1"
      = Except.ok [EventsRow.mk "e1" "processed" (some 2) none 2] ∧
    EventsRow.mk "e1" "processed" (some 2) none 2
      ≠ EventsRow.mk "e1" "processed" (some 1) none 1 := by
  refine ⟨rfl, rfl, by decide⟩

/-- C6, amended: after a successful `MarkEventAsProcessed`, calling it again
with the same terminal status returns no error and leaves the status column
`processed`; the only effect of the second call on the stored rows is a
refresh of the timestamp columns (`nostr_processed_at`, `updated_at`) to
the new wall-clock time — a no-op only when the clock has not moved. -/
theorem mark_processed_idempotent_on_status (now1 now2 : Int)
    (db db1 : List EventsRow) (identifier : String)
    (h : markEventAsProcessed now1 db identifier = Except.ok db1) :
    markEventAsProcessed now2 db1 identifier =
      Except.ok (db1.map (timestampRefresh now2 identifier)) ∧
    ∀ r ∈ db1.map (timestampRefresh now2 identifier),
      r.identifier = identifier → r.nostrStatus = "processed" := by
  unfold markEventAsProcessed at h
  by_cases h0 : db.countP (fun r => decide (r.identifier = identifier)) = 0
  · rw [if_pos h0] at h
    exact absurd h (by simp)
  · rw [if_neg h0] at h
    have hdb1 : db.map (processedUpdate now1 identifier) = db1 := by
      simpa using h
    subst hdb1
    constructor
    · unfold markEventAsProcessed
      rw [countP_identifier_map, if_neg h0]
      congr 1
      rw [List.map_map, List.map_map]
      apply List.map_congr_left
      intro r _
      simpa [Function.comp] using processedUpdate_twice now1 now2 identifier r
    · intro r hr hid
      rcases List.mem_map.mp hr with ⟨s, hs, rfl⟩
      rcases List.mem_map.mp hs with ⟨u, _, rfl⟩
      by_cases hui : u.identifier = identifier
      · simp [timestampRefresh, processedUpdate, hui]
      · simp [timestampRefresh, processedUpdate, hui] at hid

/-- Witness for C6 (amended): the second call succeeds and equals the
timestamp refresh of the first call's result. -/
theorem mark_processed_idempotent_on_status_witness :
    markEventAsProcessed 1 [EventsRow.mk "e2" "pending" none none 0] "e2"
      = Except.ok [EventsRow.mk "e2" "processed" (some 1) none 1] ∧
    markEventAsProcessed 2 [EventsRow.mk "e2" "processed" (some 1) none 1] "e2"
      = Except.ok ([EventsRow.mk "e2" "processed" (some 1) none 1].map
          (timestampRefresh 2 "e2")) := by
  refine ⟨rfl, ?_⟩
  exact (mark_processed_idempotent_on_status 1 2
    [EventsRow.mk "e2" "pending" none none 0]
    [EventsRow.mk "e2" "processed" (some 1) none 1] "e2" rfl).1

/-- The truncation notice appended by `truncateMessage` is 51 bytes long —
one more than the 50 bytes the slice reserves for it. -/
theorem truncationNotice_length : truncationNotice.length = 51 := by decide

/-- C7, counterexample: a 2001-byte message truncated to the fixed
2000-byte Discord ceiling still has 2001 bytes, both through
`truncateMessage` directly and through the body `sendRoomBatch` passes to
the webhook — the truncation notice is 51 bytes but only 50 are reserved. -/
theorem truncateMessage_exceeds_ceiling :
    ¬((truncateMessage (List.replicate 2001 'a') maxDiscordMessageSize).length
        ≤ maxDiscordMessageSize) ∧
    ¬((sendRoomBatchBody (List.replicate 2001 'a')).length
        ≤ maxDiscordMessageSize) := by
  have hlen :
      (truncateMessage (List.replicate 2001 'a') maxDiscordMessageSize).length
        = 2001 := by
    rw [truncateMessage,
      if_neg (by simp only [List.length_replicate, maxDiscordMessageSize]; omega)]
    rw [List.length_append, List.length_take, List.length_replicate,
      truncationNotice_length]
    simp only [maxDiscordMessageSize]
    omega
  have hbody : sendRoomBatchBody (List.replicate 2001 'a')
      = truncateMessage (List.replicate 2001 'a') maxDiscordMessageSize := by
    rw [sendRoomBatchBody,
      if_pos (by simp only [List.length_replicate, maxDiscordMessageSize]; omega)]
  constructor
  · rw [hlen]
    simp [maxDiscordMessageSize]
  · rw [hbody, hlen]
    simp [maxDiscordMessageSize]

/-- C7, amended: for every message longer than the ceiling (with the
ceiling at least the 50 reserved bytes, as the fixed 2000-byte ceiling is),
the truncated body has length exactly `maxSize + 1` — the bound holds only
up to one extra byte, and the webhook body is bounded by
`maxDiscordMessageSize + 1`, not `maxDiscordMessageSize`. -/
theorem truncateMessage_length_bound (message : List Char) (maxSize : Nat)
    (h50 : 50 ≤ maxSize) (h : maxSize < message.length) :
    (truncateMessage message maxSize).length = maxSize + 1 ∧
    (sendRoomBatchBody message).length ≤ maxDiscordMessageSize + 1 := by
  have hmain : ∀ m : List Char, ∀ sz : Nat, 50 ≤ sz → sz < m.length →
      (truncateMessage m sz).length = sz + 1 := by
    intro m sz hsz hlt
    rw [truncateMessage, if_neg (by omega)]
    rw [List.length_append, List.length_take, truncationNotice_length]
    rw [min_eq_left (by omega)]
    omega
  refine ⟨hmain message maxSize h50 h, ?_⟩
  rw [sendRoomBatchBody]
  by_cases hb : message.length > maxDiscordMessageSize
  · rw [if_pos hb]
    rw [hmain message maxDiscordMessageSize (by decide) hb]
  · rw [if_neg hb]
    omega

/-- Witness for C7 (amended): a 51-byte message truncated to a 50-byte
ceiling has exactly 51 bytes. -/
theorem truncateMessage_length_bound_witness :
    50 ≤ 50 ∧ 50 < (List.replicate 51 'b').length ∧
    ((truncateMessage (List.replicate 51 'b') 50).length = 50 + 1 ∧
      (sendRoomBatchBody (List.replicate 51 'b')).length
        ≤ maxDiscordMessageSize + 1) :=
  ⟨by decide, by simp,
    truncateMessage_length_bound (List.replicate 51 'b') 50 (by decide)
      (by simp)⟩

/-- C8, counterexample: the claim says the formatted message carries a
summary attribute only when the description is non-empty, but
`generateNip53` emits the `summary` tag (and the `image` tag)
unconditionally: a record with empty description and empty image URL still
gets both tags. -/
theorem generateNip53_summary_with_empty_description :
    (EventData.mk "p1" "n1" "Event" "" "" 0 0 false "Room" "id1" "pk").description
      = "" ∧
    (EventData.mk "p1" "n1" "Event" "" "" 0 0 false "Room" "id1" "pk").imageURL
      = "" ∧
    hasTag (generateNip53
        (EventData.mk "p1" "n1" "Event" "" "" 0 0 false "Room" "id1" "pk")
        "pk" "https://hivetalk.org" 0).tags "summary" = true ∧
    hasTag (generateNip53
        (EventData.mk "p1" "n1" "Event" "" "" 0 0 false "Room" "id1" "pk")
        "pk" "https://hivetalk.org" 0).tags "image" = true := by
  refine ⟨rfl, rfl, ?_, ?_⟩ <;> decide

/-- C8, amended: the conditional optional attributes belong to the updating
formatter `updateNip53`, whose conditional tag is keyed `description`
(not `summary`): it carries a `description` tag iff the record's
description is non-empty and an `image` tag iff the record's image is
non-empty, while `generateNip53` emits its `summary` and `image` tags
unconditionally. -/
theorem formatter_optional_attributes (hivetalkURL : String) (e : Event)
    (status : String) :
    (hasTag (updateNip53Tags hivetalkURL e status) "description" = true ↔
      e.getDescription ≠ "") ∧
    (hasTag (updateNip53Tags hivetalkURL e status) "image" = true ↔
      e.getImage ≠ "") ∧
    ∀ (ed : EventData) (pubkey hiveURL : String) (nowUnix : Int),
      hasTag (generateNip53 ed pubkey hiveURL nowUnix).tags "summary" = true ∧
      hasTag (generateNip53 ed pubkey hiveURL nowUnix).tags "image" = true := by
  refine ⟨?_, ?_, ?_⟩
  · by_cases hd : e.getDescription = "" <;> by_cases hi : e.getImage = "" <;>
      simp [updateNip53Tags, hasTag, hd, hi]
  · by_cases hd : e.getDescription = "" <;> by_cases hi : e.getImage = "" <;>
      simp [updateNip53Tags, hasTag, hd, hi]
  · intro ed pubkey hiveURL nowUnix
    constructor <;> simp [generateNip53, hasTag]

/-- Writing one room's entry changes only that room's lookup. -/
theorem lookupRoom_setRoom (db : RoomDB) (k r : String) (v : RoomInfo) :
    lookupRoom (setRoom db k v) r
      = if k = r then some v else lookupRoom db r := by
  induction db with
  | nil => simp [setRoom, lookupRoom]
  | cons p t ih =>
    obtain ⟨pk, pv⟩ := p
    by_cases hpk : pk = k
    · subst hpk
      by_cases hkr : pk = r <;> simp [setRoom, lookupRoom, hkr]
    · by_cases hpr : pk = r
      · have hkr : ¬(k = r) := fun hc => hpk (hpr.trans hc.symm)
        have hrk : ¬(r = k) := fun hc => hkr hc.symm
        simp [setRoom, lookupRoom, hpk, hpr, hkr, hrk]
      · simp [setRoom, lookupRoom, hpk, hpr, ih]

/-- `getDTag` never changes the d-tag of a room that already has one. -/
theorem dTagOf_getDTag (fresh : String) (db : RoomDB)
    (roomID rid : String) (t : String) (h : dTagOf db rid = some t) :
    dTagOf ((getDTag fresh db roomID).2) rid = some t := by
  unfold getDTag
  cases hl : lookupRoom db roomID with
  | some info => simpa using h
  | none =>
    have hne : ¬(roomID = rid) := by
      intro hc
      rw [dTagOf, ← hc, hl] at h
      simp at h
    simp only [dTagOf, lookupRoom_setRoom, if_neg hne]
    exact h

/-- `updateRoomStatus` never changes the d-tag of a room that already has
one: the existing-entry branch copies the stored `DTag`, and the
new-entry branch touches only the new room's key. -/
theorem dTagOf_updateRoomStatus (now : Int) (fresh : String) (db : RoomDB)
    (roomID roomName status rid : String) (t : String)
    (h : dTagOf db rid = some t) :
    dTagOf ((updateRoomStatus now fresh db roomID roomName status).2) rid
      = some t := by
  unfold updateRoomStatus
  cases hl : lookupRoom db roomID with
  | none =>
    have hne : ¬(roomID = rid) := by
      intro hc
      rw [dTagOf, ← hc, hl] at h
      simp at h
    unfold getDTag
    rw [hl]
    simp only [dTagOf, lookupRoom_setRoom, if_neg hne]
    exact h
  | some info =>
    by_cases hc : info.status ≠ status ∨ info.roomName ≠ roomName
    · simp only [hc, if_pos]
      by_cases hr : roomID = rid
      · subst hr
        rw [dTagOf, hl] at h
        simp only [dTagOf, lookupRoom_setRoom, if_pos rfl]
        simpa using h
      · simp only [dTagOf, lookupRoom_setRoom, if_neg hr]
        exact h
    · simp only [hc, if_neg, if_false]
      by_cases hr : roomID = rid
      · subst hr
        rw [dTagOf, hl] at h
        simp only [dTagOf, lookupRoom_setRoom, if_pos rfl]
        simpa using h
      · simp only [dTagOf, lookupRoom_setRoom, if_neg hr]
        exact h

/-- The `checkClosedRooms` scan never changes an existing d-tag. -/
theorem dTagOf_checkClosedRoomsAux (now : Int) (fresh : String)
    (active : List String) (keys : List String) :
    ∀ (db : RoomDB) (rid t : String), dTagOf db rid = some t →
      dTagOf ((checkClosedRoomsAux now fresh active keys db).2) rid = some t := by
  induction keys with
  | nil =>
    intro db rid t h
    simpa [checkClosedRoomsAux] using h
  | cons k rest ih =>
    intro db rid t h
    unfold checkClosedRoomsAux
    cases hl : lookupRoom db k with
    | none => exact ih db rid t h
    | some info =>
      by_cases hcond : info.status = "open" ∧ ¬ active.contains k
      · simp only [hcond, and_self, if_true]
        apply ih
        exact dTagOf_updateRoomStatus _ _ _ _ _ _ _ _ h
      · simp only [hcond, if_false]
        exact ih db rid t h

/-- C9: for every room identifier that already has an entry in the
file-backed room/tag map, every operation of the poller — `getDTag` (on any
room), `updateRoomStatus` (on any room), and the `checkClosedRooms` scan —
leaves that room's assigned d-tag unchanged. -/
theorem dTag_stable_under_operations (db : RoomDB) (rid : String)
    (info : RoomInfo) (h : lookupRoom db rid = some info) :
    (∀ fresh roomID,
      dTagOf ((getDTag fresh db roomID).2) rid = some info.dTag) ∧
    (∀ now fresh roomID roomName status,
      dTagOf ((updateRoomStatus now fresh db roomID roomName status).2) rid
        = some info.dTag) ∧
    (∀ now fresh active,
      dTagOf ((checkClosedRooms now fresh active db).2) rid = some info.dTag) := by
  have hd : dTagOf db rid = some info.dTag := by simp [dTagOf, h]
  refine ⟨?_, ?_, ?_⟩
  · intro fresh roomID
    exact dTagOf_getDTag fresh db roomID rid info.dTag hd
  · intro now fresh roomID roomName status
    exact dTagOf_updateRoomStatus now fresh db roomID roomName status rid
      info.dTag hd
  · intro now fresh active
    exact dTagOf_checkClosedRoomsAux now fresh active _ db rid info.dTag hd

/-- Witness for C9: a concrete open room keeps its tag under a tag lookup
for another room, a status update to closed, and a closed-room scan. -/
theorem dTag_stable_under_operations_witness :
    lookupRoom [("r1", RoomInfo.mk "tag1" "Hive Room" "open" 0)] "r1"
      = some (RoomInfo.mk "tag1" "Hive Room" "open" 0) ∧
    dTagOf ((getDTag "freshtag"
        [("r1", RoomInfo.mk "tag1" "Hive Room" "open" 0)] "r2").2) "r1"
      = some "tag1" ∧
    dTagOf ((updateRoomStatus 5 "freshtag"
        [("r1", RoomInfo.mk "tag1" "Hive Room" "open" 0)]
        "r1" "Hive Room" "closed").2) "r1" = some "tag1" ∧
    dTagOf ((checkClosedRooms 5 "freshtag" []
        [("r1", RoomInfo.mk "tag1" "Hive Room" "open" 0)]).2) "r1"
      = some "tag1" := by
  refine ⟨rfl, ?_, ?_, ?_⟩
  · exact (dTag_stable_under_operations
      [("r1", RoomInfo.mk "tag1" "Hive Room" "open" 0)] "r1"
      (RoomInfo.mk "tag1" "Hive Room" "open" 0) rfl).1 "freshtag" "r2"
  · exact (dTag_stable_under_operations
      [("r1", RoomInfo.mk "tag1" "Hive Room" "open" 0)] "r1"
      (RoomInfo.mk "tag1" "Hive Room" "open" 0) rfl).2.1 5 "freshtag" "r1"
      "Hive Room" "closed"
  · exact (dTag_stable_under_operations
      [("r1", RoomInfo.mk "tag1" "Hive Room" "open" 0)] "r1"
      (RoomInfo.mk "tag1" "Hive Room" "open" 0) rfl).2.2 5 "freshtag" []

end Scheduler
